import Mathlib

/-!
Verification of the Synthea → OMOP mapping engine
(`src/etl_omop_fhir/etl_engine/synthea_omop_mapper.py`) and of the
de-identification script (`src/datashield_vignette/prepare_data.py`).

Modelling conventions:
* Calendar dates are modelled as integer day numbers (`Int`); pandas date
  arithmetic (`Timedelta(days=k)`, `(a - b).dt.days`) becomes integer
  arithmetic on those day numbers.
* A raw CSV date cell is a `RawDate`: a parseable date, an empty cell
  (which `pd.to_datetime` turns into `NaT` without raising), or a
  malformed string (on which `pd.to_datetime` raises unless
  `errors="coerce"` is passed).
* Missing values (`NaN`/`NaT`/`None`) are `Option.none`.
* The Python dict `person_id_map` is modelled as a function
  `String → Option Nat` updated by assignment, which matches dict
  semantics exactly (a later assignment to the same key overwrites).
* Persistence (`bulk_insert`) is modelled by the stage's return value:
  a stage that raises returns `Except.error` and hands nothing to the
  bulk loader.
-/

/-- A raw date cell of a source CSV file: a parseable date (as an integer
day number), an empty cell, or a malformed string. -/
inductive RawDate where
  | valid (day : Int)
  | missing
  | invalid
  deriving DecidableEq, Repr

/-- `pd.to_datetime` with default `errors="raise"` semantics, applied to a
single cell: a parseable date parses, an empty cell becomes `NaT`
(`none`), a malformed string raises. -/
def toDatetimeStrict : RawDate → Except String (Option Int)
  | .valid d => .ok (some d)
  | .missing => .ok none
  | .invalid => .error "Unknown datetime string format"

/-- `pd.to_datetime(col, errors="coerce")` applied to a single cell:
anything unparseable becomes `NaT` (`none`). -/
def toDatetimeCoerce : RawDate → Option Int
  | .valid d => some d
  | .missing => none
  | .invalid => none

/-- `pd.to_datetime` with default errors applied to a whole column:
raises if any cell is malformed, otherwise yields the parsed column. -/
def parseStrictList : List RawDate → Except String (List (Option Int))
  | [] => .ok []
  | d :: ds =>
    match toDatetimeStrict d with
    | .error e => .error e
    | .ok v =>
      match parseStrictList ds with
      | .error e => .error e
      | .ok vs => .ok (v :: vs)

/-- One row of Synthea `patients.csv`, restricted to the columns the
person / observation-period mappers read. -/
structure Patient where
  Id : String
  GENDER : Option String
  BIRTHDATE : RawDate
  DEATHDATE : RawDate
  RACE : Option String
  ETHNICITY : Option String
  deriving DecidableEq, Repr

/-- Gender lookup of `map_person` (line 69-73):
`{"F": 8532, "M": 8507, "female": 8532, "male": 8507}` then `fillna(0)`. -/
def genderConcept : Option String → Nat
  | none => 0
  | some s =>
    if s = "F" then 8532
    else if s = "M" then 8507
    else if s = "female" then 8532
    else if s = "male" then 8507
    else 0

/-- Race lookup of `map_person` (lines 83-87):
`{"white": 8527, "black": 8516, "asian": 8515, "other": 8522}` then
`fillna(0)`. -/
def raceConcept : Option String → Nat
  | none => 0
  | some s =>
    if s = "white" then 8527
    else if s = "black" then 8516
    else if s = "asian" then 8515
    else if s = "other" then 8522
    else 0

/-- Ethnicity lookup of `map_person` (lines 89-93):
`{"hispanic": 38003563, "nonhispanic": 38003564}` then `fillna(0)`.
Note the source key is the literal string "nonhispanic", without a
hyphen. -/
def ethnicityConcept : Option String → Nat
  | none => 0
  | some s =>
    if s = "hispanic" then 38003563
    else if s = "nonhispanic" then 38003564
    else 0

/-- The ethnicity lookup as the spec's §4.2 words it, for comparison with
the source's `ethnicityConcept`: "Ethnicity → fixed lookup
{hispanic→38003563, non-hispanic→38003564}; unrecognized → 0". -/
def ethnicityConceptSpec : Option String → Nat
  | none => 0
  | some s =>
    if s = "hispanic" then 38003563
    else if s = "non-hispanic" then 38003564
    else 0

/-- One row of the OMOP `person` table as `map_person` shapes it
(lines 59-109), with dates as day numbers (the year/month/day
decomposition of the birth date is a projection of `birth_datetime` and
is not separately modelled). -/
structure PersonRow where
  person_id : Nat
  gender_concept_id : Nat
  birth_datetime : Option Int
  race_concept_id : Nat
  ethnicity_concept_id : Nat
  location_id : Option Nat
  provider_id : Option Nat
  care_site_id : Option Nat
  person_source_value : String
  gender_source_value : Option String
  race_source_value : Option String
  ethnicity_source_value : Option String
  gender_source_concept_id : Nat
  race_source_concept_id : Nat
  ethnicity_source_concept_id : Nat
  deriving DecidableEq, Repr

/-- The person row built from source row `p`, its parsed birth date `b`,
and its surrogate id `k` (lines 62-109). -/
def mkPersonRow (p : Patient) (b : Option Int) (k : Nat) : PersonRow :=
  { person_id := k
    gender_concept_id := genderConcept p.GENDER
    birth_datetime := b
    race_concept_id := raceConcept p.RACE
    ethnicity_concept_id := ethnicityConcept p.ETHNICITY
    location_id := none
    provider_id := none
    care_site_id := none
    person_source_value := p.Id
    gender_source_value := p.GENDER
    race_source_value := p.RACE
    ethnicity_source_value := p.ETHNICITY
    gender_source_concept_id := 0
    race_source_concept_id := 0
    ethnicity_source_concept_id := 0 }

/-- The person rows for sources `ps` (already-parsed birth dates `bs`),
surrogate ids counting up from `k`; column `person_id` is
`range(1, len(patients) + 1)` (line 62). -/
def buildPersonRows : List Patient → List (Option Int) → Nat → List PersonRow
  | p :: ps, b :: bs, k => mkPersonRow p b k :: buildPersonRows ps bs (k + 1)
  | _, _, _ => []

/-- The dict-update loop of lines 65-66: starting from map `m`, assign
`m[p.Id] := k` for each patient in order, `k` counting up. A later
assignment to the same key overwrites an earlier one, exactly as for a
Python dict. -/
def updMap (m : String → Option Nat) : List Patient → Nat → (String → Option Nat)
  | [], _ => m
  | p :: ps, k => updMap (fun s => if s = p.Id then some k else m s) ps (k + 1)

/-- The `person_id_map` after `map_person` ran on `patients`
(lines 31, 62-66): Synthea UUID → OMOP person_id, ids `1..N` zipped with
the rows in file order. -/
def buildIdMap (patients : List Patient) : String → Option Nat :=
  updMap (fun _ => none) patients 1

/-- `SyntheaOMOPMapper.map_person` (lines 51-113): assigns surrogate ids
`1..N`, populates the identity map, parses the birth-date column with
default (raising) error handling, and shapes the person rows. The
returned pair is what the stage persists plus the populated identity
map; a parse failure propagates as `Except.error` and nothing reaches
`bulk_insert`. -/
def map_person (patients : List Patient) :
    Except String (List PersonRow × (String → Option Nat)) :=
  let idMap := buildIdMap patients
  match parseStrictList (patients.map Patient.BIRTHDATE) with
  | .error e => .error e
  | .ok births => .ok (buildPersonRows patients births 1, idMap)

/-- The rows the person stage hands to `bulk_insert` (line 112): `none`
when the stage raised before reaching the insert. -/
def personStagePersisted (patients : List Patient) : Option (List PersonRow) :=
  match map_person patients with
  | .ok (rows, _) => some rows
  | .error _ => none

/-! ### Column-parsing lemmas -/

theorem parseStrictList_length {ds : List RawDate} {vs : List (Option Int)}
    (h : parseStrictList ds = .ok vs) : vs.length = ds.length := by
  induction ds generalizing vs with
  | nil =>
    simp only [parseStrictList] at h
    cases h
    rfl
  | cons d ds ih =>
    simp only [parseStrictList] at h
    cases hd : toDatetimeStrict d with
    | error e => rw [hd] at h; cases h
    | ok v =>
      rw [hd] at h
      cases hds : parseStrictList ds with
      | error e => rw [hds] at h; cases h
      | ok vs0 =>
        rw [hds] at h
        cases h
        simp [ih hds]

theorem parseStrictList_get {ds : List RawDate} {vs : List (Option Int)}
    (h : parseStrictList ds = .ok vs) (i : Nat) (hi : i < ds.length)
    (hv : i < vs.length) :
    toDatetimeStrict (ds.get ⟨i, hi⟩) = .ok (vs.get ⟨i, hv⟩) := by
  induction ds generalizing vs i with
  | nil => exact absurd hi (by simp)
  | cons d ds ih =>
    simp only [parseStrictList] at h
    cases hd : toDatetimeStrict d with
    | error e => rw [hd] at h; cases h
    | ok v =>
      rw [hd] at h
      cases hds : parseStrictList ds with
      | error e => rw [hds] at h; cases h
      | ok vs0 =>
        rw [hds] at h
        cases h
        cases i with
        | zero => simpa using hd
        | succ i =>
          exact ih hds i (Nat.lt_of_succ_lt_succ hi) (Nat.lt_of_succ_lt_succ hv)

theorem parseStrictList_error_of_invalid {ds : List RawDate}
    (h : RawDate.invalid ∈ ds) : ∃ e, parseStrictList ds = .error e := by
  induction ds with
  | nil => cases h
  | cons d ds ih =>
    rcases List.mem_cons.mp h with h0 | hmem
    · refine ⟨"Unknown datetime string format", ?_⟩
      simp [parseStrictList, ← h0, toDatetimeStrict]
    · rcases ih hmem with ⟨e, he⟩
      cases hd : toDatetimeStrict d with
      | error e0 => exact ⟨e0, by simp [parseStrictList, hd]⟩
      | ok v => exact ⟨e, by simp [parseStrictList, hd, he]⟩

theorem parseStrictList_ok_of_no_invalid {ds : List RawDate}
    (h : ∀ d ∈ ds, d ≠ RawDate.invalid) :
    ∃ vs, parseStrictList ds = .ok vs := by
  induction ds with
  | nil => exact ⟨[], rfl⟩
  | cons d ds ih =>
    rcases ih (fun x hx => h x (List.mem_cons_of_mem d hx)) with ⟨vs, hvs⟩
    have hd : d ≠ RawDate.invalid := h d (List.mem_cons_self d ds)
    cases d with
    | valid day => exact ⟨some day :: vs, by simp [parseStrictList, toDatetimeStrict, hvs]⟩
    | missing => exact ⟨none :: vs, by simp [parseStrictList, toDatetimeStrict, hvs]⟩
    | invalid => exact absurd rfl hd

/-! ### Person-row construction lemmas -/

theorem buildPersonRows_length {ps : List Patient} {bs : List (Option Int)}
    (h : bs.length = ps.length) (k : Nat) :
    (buildPersonRows ps bs k).length = ps.length := by
  induction ps generalizing bs k with
  | nil => cases bs with
    | nil => rfl
    | cons b bs => cases h
  | cons p ps ih =>
    cases bs with
    | nil => cases h
    | cons b bs =>
      simp only [buildPersonRows, List.length_cons]
      exact congrArg Nat.succ (ih (Nat.succ_injective h) (k + 1))

theorem buildPersonRows_get {ps : List Patient} {bs : List (Option Int)}
    (h : bs.length = ps.length) (k i : Nat) (hi : i < ps.length)
    (hb : i < bs.length) (hr : i < (buildPersonRows ps bs k).length) :
    (buildPersonRows ps bs k).get ⟨i, hr⟩ =
      mkPersonRow (ps.get ⟨i, hi⟩) (bs.get ⟨i, hb⟩) (k + i) := by
  induction ps generalizing bs k i with
  | nil => exact absurd hi (by simp)
  | cons p ps ih =>
    cases bs with
    | nil => cases h
    | cons b bs =>
      cases i with
      | zero => rfl
      | succ i =>
        have := ih (Nat.succ_injective h) (k + 1) i
          (Nat.lt_of_succ_lt_succ hi) (Nat.lt_of_succ_lt_succ hb)
          (by
            have hl := buildPersonRows_length
              (Nat.succ_injective h) (k + 1)
            exact hl ▸ Nat.lt_of_succ_lt_succ hi)
        calc (buildPersonRows (p :: ps) (b :: bs) k).get ⟨i + 1, hr⟩
            = (buildPersonRows ps bs (k + 1)).get ⟨i, _⟩ := rfl
          _ = mkPersonRow (ps.get ⟨i, _⟩) (bs.get ⟨i, _⟩) (k + 1 + i) := this
          _ = mkPersonRow ((p :: ps).get ⟨i + 1, hi⟩) ((b :: bs).get ⟨i + 1, hb⟩)
                (k + (i + 1)) := by
              simp [List.get_cons_succ, Nat.add_assoc, Nat.add_comm 1 i]

theorem buildPersonRows_map_pid {ps : List Patient} {bs : List (Option Int)}
    (h : bs.length = ps.length) (k : Nat) :
    (buildPersonRows ps bs k).map PersonRow.person_id =
      List.range' k ps.length := by
  induction ps generalizing bs k with
  | nil => cases bs with
    | nil => rfl
    | cons b bs => cases h
  | cons p ps ih =>
    cases bs with
    | nil => cases h
    | cons b bs =>
      show (mkPersonRow p b k).person_id ::
          (buildPersonRows ps bs (k + 1)).map PersonRow.person_id =
          List.range' k (ps.length + 1)
      rw [List.range'_succ, ih (Nat.succ_injective h) (k + 1)]
      rfl

/-! ### Claim C1 -/

/-- Claim C1: for every patients source table with N rows, `map_person`
produces a person table with exactly N rows whose surrogate `person_id`
values are exactly the contiguous integers 1..N, assigned in source-row
order (row i receives id i, 1-based). -/
theorem person_surrogate_ids_dense (patients : List Patient)
    (rows : List PersonRow) (m : String → Option Nat)
    (h : map_person patients = .ok (rows, m)) :
    rows.length = patients.length ∧
      rows.map PersonRow.person_id = List.range' 1 patients.length := by
  unfold map_person at h
  cases hp : parseStrictList (patients.map Patient.BIRTHDATE) with
  | error e => rw [hp] at h; cases h
  | ok births =>
    rw [hp] at h
    cases h
    have hlen : births.length = patients.length := by
      have := parseStrictList_length hp
      simpa using this
    exact ⟨buildPersonRows_length hlen 1, buildPersonRows_map_pid hlen 1⟩

/-- Concrete instantiation of `person_surrogate_ids_dense` on a
two-patient table. -/
theorem person_surrogate_ids_dense_witness :
    (buildPersonRows
        [⟨"p1", some "F", .valid 7305, .missing, some "white", some "nonhispanic"⟩,
         ⟨"p2", some "M", .valid 8000, .missing, some "asian", some "hispanic"⟩]
        [some 7305, some 8000] 1).length =
      ([⟨"p1", some "F", .valid 7305, .missing, some "white", some "nonhispanic"⟩,
        ⟨"p2", some "M", .valid 8000, .missing, some "asian", some "hispanic"⟩] :
        List Patient).length ∧
    (buildPersonRows
        [⟨"p1", some "F", .valid 7305, .missing, some "white", some "nonhispanic"⟩,
         ⟨"p2", some "M", .valid 8000, .missing, some "asian", some "hispanic"⟩]
        [some 7305, some 8000] 1).map PersonRow.person_id =
      List.range' 1
        ([⟨"p1", some "F", .valid 7305, .missing, some "white", some "nonhispanic"⟩,
          ⟨"p2", some "M", .valid 8000, .missing, some "asian", some "hispanic"⟩] :
          List Patient).length :=
  person_surrogate_ids_dense _ _
    (buildIdMap
      [⟨"p1", some "F", .valid 7305, .missing, some "white", some "nonhispanic"⟩,
       ⟨"p2", some "M", .valid 8000, .missing, some "asian", some "hispanic"⟩])
    rfl

/-! ### Identity-map lemmas -/

theorem updMap_eq_of_notin {s : String} {ps : List Patient}
    (h : ∀ p ∈ ps, p.Id ≠ s) (m : String → Option Nat) (k : Nat) :
    updMap m ps k s = m s := by
  induction ps generalizing m k with
  | nil => rfl
  | cons p ps ih =>
    have hp : p.Id ≠ s := h p (List.mem_cons_self p ps)
    have := ih (fun q hq => h q (List.mem_cons_of_mem p hq))
      (fun t => if t = p.Id then some k else m t) (k + 1)
    rw [updMap, this, if_neg (fun he => hp he.symm)]

theorem updMap_last {ps : List Patient} {j : Nat} {s : String}
    (hj : j < ps.length) (hs : (ps.get ⟨j, hj⟩).Id = s)
    (hlast : ∀ t (ht : t < ps.length), j < t → (ps.get ⟨t, ht⟩).Id ≠ s)
    (m : String → Option Nat) (k : Nat) :
    updMap m ps k s = some (k + j) := by
  induction ps generalizing m k j with
  | nil => exact absurd hj (by simp)
  | cons p ps ih =>
    cases j with
    | zero =>
      have htail : ∀ q ∈ ps, q.Id ≠ s := by
        intro q hq
        rcases List.mem_iff_get.mp hq with ⟨⟨t, ht⟩, rfl⟩
        exact hlast (t + 1) (Nat.succ_lt_succ ht) (Nat.succ_pos t)
      rw [updMap, updMap_eq_of_notin htail]
      have : s = p.Id := hs.symm
      simp [this]
    | succ j =>
      have := ih (Nat.lt_of_succ_lt_succ hj) hs
        (fun t ht hgt => hlast (t + 1) (Nat.succ_lt_succ ht) (Nat.succ_lt_succ hgt))
        (fun t => if t = p.Id then some k else m t) (k + 1)
      rw [updMap, this]
      congr 1
      omega

theorem updMap_some_inv {ps : List Patient} {s : String} {v : Nat}
    (m : String → Option Nat) (k : Nat) (h : updMap m ps k s = some v) :
    m s = some v ∨ ∃ j, ∃ hj : j < ps.length, (ps.get ⟨j, hj⟩).Id = s ∧ v = k + j := by
  induction ps generalizing m k with
  | nil => exact Or.inl h
  | cons p ps ih =>
    rw [updMap] at h
    rcases ih _ _ h with h0 | ⟨j, hj, hjs, hv⟩
    · by_cases hsp : s = p.Id
      · rw [if_pos hsp] at h0
        refine Or.inr ⟨0, Nat.succ_pos ps.length, hsp.symm, ?_⟩
        have := Option.some.inj h0
        omega
      · rw [if_neg hsp] at h0
        exact Or.inl h0
    · exact Or.inr ⟨j + 1, Nat.succ_lt_succ hj, hjs, by omega⟩

theorem nodup_ids_ne {patients : List Patient}
    (hnd : (patients.map Patient.Id).Nodup)
    {i t : Nat} (hi : i < patients.length) (ht : t < patients.length)
    (hne : t ≠ i) :
    (patients.get ⟨t, ht⟩).Id ≠ (patients.get ⟨i, hi⟩).Id := by
  intro he
  have hmt : t < (patients.map Patient.Id).length := by simpa using ht
  have hmi : i < (patients.map Patient.Id).length := by simpa using hi
  have hg : (patients.map Patient.Id)[t] = (patients.map Patient.Id)[i] := by
    simpa [List.getElem_map] using he
  exact hne ((List.Nodup.getElem_inj_iff hnd).mp hg)

theorem map_person_idmap {patients : List Patient} {rows : List PersonRow}
    {m : String → Option Nat} (h : map_person patients = .ok (rows, m)) :
    m = buildIdMap patients := by
  unfold map_person at h
  cases hp : parseStrictList (patients.map Patient.BIRTHDATE) with
  | error e => rw [hp] at h; cases h
  | ok births => rw [hp] at h; cases h; rfl

/-! ### Claim C2 -/

/-- Claim C2 counterexample: on a patients table whose two rows share the
source identifier "p", person mapping assigns row 1 (0-indexed row 0)
surrogate id 1, but the identity map resolves "p" to 2 — so the claim,
which has no precondition of distinct source identifiers, fails: row 0's
identifier does not resolve to row 0's surrogate id. -/
theorem identity_map_duplicate_cex :
    map_person
        [⟨"p", some "F", .valid 100, .missing, none, none⟩,
         ⟨"p", some "M", .valid 200, .missing, none, none⟩] =
      .ok
        (buildPersonRows
          [⟨"p", some "F", .valid 100, .missing, none, none⟩,
           ⟨"p", some "M", .valid 200, .missing, none, none⟩]
          [some 100, some 200] 1,
         buildIdMap
          [⟨"p", some "F", .valid 100, .missing, none, none⟩,
           ⟨"p", some "M", .valid 200, .missing, none, none⟩]) ∧
    (buildPersonRows
        [⟨"p", some "F", .valid 100, .missing, none, none⟩,
         ⟨"p", some "M", .valid 200, .missing, none, none⟩]
        [some 100, some 200] 1).map PersonRow.person_id = [1, 2] ∧
    (buildPersonRows
        [⟨"p", some "F", .valid 100, .missing, none, none⟩,
         ⟨"p", some "M", .valid 200, .missing, none, none⟩]
        [some 100, some 200] 1).map PersonRow.person_source_value = ["p", "p"] ∧
    buildIdMap
        [⟨"p", some "F", .valid 100, .missing, none, none⟩,
         ⟨"p", some "M", .valid 200, .missing, none, none⟩] "p" = some 2 ∧
    some 2 ≠ (some 1 : Option Nat) := by
  refine ⟨rfl, rfl, rfl, rfl, by decide⟩

/-- Claim C2 as amended: provided the source patient identifiers are
pairwise distinct, the identity map built by `map_person` resolves each
row's source identifier to that row's surrogate id `i + 1`, and no other
source identifier resolves to that surrogate id. -/
theorem identity_map_complete_of_nodup (patients : List Patient)
    (rows : List PersonRow) (m : String → Option Nat)
    (h : map_person patients = .ok (rows, m))
    (hnd : (patients.map Patient.Id).Nodup)
    (i : Nat) (hi : i < patients.length) (s : String) :
    m (patients.get ⟨i, hi⟩).Id = some (i + 1) ∧
      (m s = some (i + 1) → s = (patients.get ⟨i, hi⟩).Id) := by
  have hm : m = buildIdMap patients := map_person_idmap h
  subst hm
  constructor
  · have := updMap_last hi rfl
      (fun t ht hgt => nodup_ids_ne hnd hi ht (by omega))
      (fun _ => none) 1
    rw [buildIdMap, this, Nat.add_comm]
  · intro hs
    rcases updMap_some_inv _ _ hs with h0 | ⟨j, hj, hjs, hv⟩
    · cases h0
    · have : j = i := by omega
      subst this
      exact hjs.symm

/-- Concrete instantiation of `identity_map_complete_of_nodup` on a
two-patient table with distinct identifiers, at row 0 and probe
identifier "p2". -/
theorem identity_map_complete_of_nodup_witness :
    buildIdMap
        [⟨"p1", some "F", .valid 100, .missing, none, none⟩,
         ⟨"p2", some "M", .valid 200, .missing, none, none⟩]
        (([⟨"p1", some "F", .valid 100, .missing, none, none⟩,
           ⟨"p2", some "M", .valid 200, .missing, none, none⟩] :
           List Patient).get ⟨0, by decide⟩).Id = some 1 ∧
      (buildIdMap
          [⟨"p1", some "F", .valid 100, .missing, none, none⟩,
           ⟨"p2", some "M", .valid 200, .missing, none, none⟩] "p2" = some 1 →
        "p2" =
          (([⟨"p1", some "F", .valid 100, .missing, none, none⟩,
             ⟨"p2", some "M", .valid 200, .missing, none, none⟩] :
             List Patient).get ⟨0, by decide⟩).Id) :=
  identity_map_complete_of_nodup
    [⟨"p1", some "F", .valid 100, .missing, none, none⟩,
     ⟨"p2", some "M", .valid 200, .missing, none, none⟩]
    (buildPersonRows
      [⟨"p1", some "F", .valid 100, .missing, none, none⟩,
       ⟨"p2", some "M", .valid 200, .missing, none, none⟩]
      [some 100, some 200] 1)
    (buildIdMap
      [⟨"p1", some "F", .valid 100, .missing, none, none⟩,
       ⟨"p2", some "M", .valid 200, .missing, none, none⟩])
    rfl (by decide) 0 (by decide) "p2"

/-! ### Condition, drug and observation-period mappers -/

/-- One row of Synthea `conditions.csv`, restricted to the columns
`map_condition_occurrence` reads. -/
structure ConditionRow where
  PATIENT : String
  CODE : String
  START : RawDate
  STOP : RawDate
  deriving DecidableEq, Repr

/-- One row of the OMOP `condition_occurrence` table as
`map_condition_occurrence` shapes it (lines 153-190); always-null
optional columns are omitted. -/
structure CondOut where
  condition_occurrence_id : Nat
  person_id : Option Nat
  condition_concept_id : Nat
  condition_source_value : String
  condition_source_concept_id : Nat
  condition_start_date : Option Int
  condition_end_date : Option Int
  condition_type_concept_id : Nat
  condition_status_concept_id : Nat
  deriving DecidableEq, Repr

/-- The condition row built from source row `c`, its parsed start date
`st`, and its surrogate id `k` (lines 154-183): the person reference is
the identity-map lookup (`.map` on a dict leaves unmapped keys as
`NaN`), the end date is parsed with `errors="coerce"`, and the status
concept is Active when the (coerced) stop date is absent, Resolved
otherwise. -/
def mkCondRow (idM : String → Option Nat) (c : ConditionRow) (st : Option Int)
    (k : Nat) : CondOut :=
  { condition_occurrence_id := k
    person_id := idM c.PATIENT
    condition_concept_id := 0
    condition_source_value := c.CODE
    condition_source_concept_id := 0
    condition_start_date := st
    condition_end_date := toDatetimeCoerce c.STOP
    condition_type_concept_id := 32020
    condition_status_concept_id :=
      if (toDatetimeCoerce c.STOP).isNone then 4203942 else 4230359 }

/-- The condition rows for sources `cs` (already-parsed start dates
`sts`), surrogate ids counting up from `k` (line 154). -/
def buildCondRows (idM : String → Option Nat) :
    List ConditionRow → List (Option Int) → Nat → List CondOut
  | c :: cs, st :: sts, k => mkCondRow idM c st k :: buildCondRows idM cs sts (k + 1)
  | _, _, _ => []

/-- `SyntheaOMOPMapper.map_condition_occurrence` (lines 143-193): an
empty source table logs a warning and returns without writing
(modelled as `.ok none`); otherwise the start-date column is parsed with
default (raising) error handling and the shaped rows (`.ok (some rows)`)
are handed to `bulk_insert`. -/
def map_condition_occurrence (idM : String → Option Nat)
    (conditions : List ConditionRow) : Except String (Option (List CondOut)) :=
  if conditions.length = 0 then .ok none
  else
    match parseStrictList (conditions.map ConditionRow.START) with
    | .error e => .error e
    | .ok starts => .ok (some (buildCondRows idM conditions starts 1))

/-- One row of Synthea `medications.csv`, restricted to the columns
`map_drug_exposure` reads. -/
structure MedicationRow where
  PATIENT : String
  CODE : String
  START : RawDate
  STOP : RawDate
  REASONCODE : Option String
  deriving DecidableEq, Repr

/-- One row of the OMOP `drug_exposure` table as `map_drug_exposure`
shapes it (lines 205-244); always-null optional columns are omitted. -/
structure DrugOut where
  drug_exposure_id : Nat
  person_id : Option Nat
  drug_concept_id : Nat
  drug_source_value : String
  drug_source_concept_id : Nat
  drug_exposure_start_date : Option Int
  drug_exposure_end_date : Option Int
  drug_type_concept_id : Nat
  stop_reason : Option String
  days_supply : Option Int
  route_concept_id : Nat
  deriving DecidableEq, Repr

/-- The drug-exposure row built from source row `m`, its parsed start
date `st`, and its surrogate id `k` (lines 206-244): the end date is the
coerced stop date with `fillna(START)` (line 222-224), and
`days_supply` is the integer day difference end − start (lines 234-236),
`NaN` when either date is `NaT`. -/
def mkDrugRow (idM : String → Option Nat) (m : MedicationRow) (st : Option Int)
    (k : Nat) : DrugOut :=
  let endD : Option Int :=
    match toDatetimeCoerce m.STOP with
    | some e => some e
    | none => st
  { drug_exposure_id := k
    person_id := idM m.PATIENT
    drug_concept_id := 0
    drug_source_value := m.CODE
    drug_source_concept_id := 0
    drug_exposure_start_date := st
    drug_exposure_end_date := endD
    drug_type_concept_id := 38000177
    stop_reason := m.REASONCODE
    days_supply :=
      match endD, st with
      | some e, some s => some (e - s)
      | _, _ => none
    route_concept_id := 0 }

/-- The drug-exposure rows for sources `ms` (already-parsed start dates
`sts`), surrogate ids counting up from `k` (line 206). -/
def buildDrugRows (idM : String → Option Nat) :
    List MedicationRow → List (Option Int) → Nat → List DrugOut
  | m :: ms, st :: sts, k => mkDrugRow idM m st k :: buildDrugRows idM ms sts (k + 1)
  | _, _, _ => []

/-- `SyntheaOMOPMapper.map_drug_exposure` (lines 195-247): an empty
source table logs a warning and returns without writing (`.ok none`);
otherwise the start-date column is parsed with default (raising) error
handling and the shaped rows are handed to `bulk_insert`. -/
def map_drug_exposure (idM : String → Option Nat) (meds : List MedicationRow) :
    Except String (Option (List DrugOut)) :=
  if meds.length = 0 then .ok none
  else
    match parseStrictList (meds.map MedicationRow.START) with
    | .error e => .error e
    | .ok starts => .ok (some (buildDrugRows idM meds starts 1))

/-- One row of the OMOP `observation_period` table as
`map_observation_period` shapes it (lines 121-138). -/
structure ObsRow where
  observation_period_id : Nat
  person_id : Option Nat
  observation_period_start_date : Option Int
  observation_period_end_date : Int
  period_type_concept_id : Nat
  deriving DecidableEq, Repr

/-- The observation-period row for patient `p` with parsed birth date `b`
(lines 122-138): end date is the coerced death date with the current
timestamp filled in for `NaT` (lines 132-135). -/
def mkObsRow (idM : String → Option Nat) (p : Patient) (b : Option Int)
    (now : Int) (k : Nat) : ObsRow :=
  { observation_period_id := k
    person_id := idM p.Id
    observation_period_start_date := b
    observation_period_end_date := (toDatetimeCoerce p.DEATHDATE).getD now
    period_type_concept_id := 44814724 }

/-- The observation-period rows for `ps` with parsed birth dates `bs`,
surrogate ids counting up from `k` (line 122). -/
def buildObsRows (idM : String → Option Nat) (now : Int) :
    List Patient → List (Option Int) → Nat → List ObsRow
  | p :: ps, b :: bs, k => mkObsRow idM p b now k :: buildObsRows idM now ps bs (k + 1)
  | _, _, _ => []

/-- `SyntheaOMOPMapper.map_observation_period` (lines 115-141): re-reads
the patients table, resolves person references through the identity map,
parses the birth-date column with default (raising) error handling, and
shapes one period per patient; `now` is the wall-clock timestamp used
for still-living patients. -/
def map_observation_period (idM : String → Option Nat)
    (patients : List Patient) (now : Int) : Except String (List ObsRow) :=
  match parseStrictList (patients.map Patient.BIRTHDATE) with
  | .error e => .error e
  | .ok births => .ok (buildObsRows idM now patients births 1)

/-- Whether an `Except` computation completed without raising. -/
def isOkE {α : Type} : Except String α → Bool
  | .ok _ => true
  | .error _ => false

/-- The `person_id` cell of output row `i` (`none` when `i` is out of
range, `some v` when the row exists and its person reference is `v`). -/
def condPersonRefAt (out : List CondOut) (i : Nat) : Option (Option Nat) :=
  (out.get? i).map CondOut.person_id

/-- The `person_id` cell of drug-exposure output row `i`. -/
def drugPersonRefAt (out : List DrugOut) (i : Nat) : Option (Option Nat) :=
  (out.get? i).map DrugOut.person_id

/-- The `drug_exposure_start_date` cell of drug-exposure output row `i`. -/
def drugStartAt (out : List DrugOut) (i : Nat) : Option (Option Int) :=
  (out.get? i).map DrugOut.drug_exposure_start_date

/-- The `drug_exposure_end_date` cell of drug-exposure output row `i`. -/
def drugEndAt (out : List DrugOut) (i : Nat) : Option (Option Int) :=
  (out.get? i).map DrugOut.drug_exposure_end_date

/-- The `days_supply` cell of drug-exposure output row `i`. -/
def daysSupplyAt (out : List DrugOut) (i : Nat) : Option (Option Int) :=
  (out.get? i).map DrugOut.days_supply

/-! ### Condition/drug row-construction lemmas -/

theorem buildCondRows_length (idM : String → Option Nat) {cs : List ConditionRow}
    {sts : List (Option Int)} (h : sts.length = cs.length) (k : Nat) :
    (buildCondRows idM cs sts k).length = cs.length := by
  induction cs generalizing sts k with
  | nil => cases sts with
    | nil => rfl
    | cons s sts => cases h
  | cons c cs ih =>
    cases sts with
    | nil => cases h
    | cons s sts =>
      simp only [buildCondRows, List.length_cons]
      exact congrArg Nat.succ (ih (Nat.succ_injective h) (k + 1))

theorem buildCondRows_get (idM : String → Option Nat) {cs : List ConditionRow}
    {sts : List (Option Int)} (h : sts.length = cs.length) (k i : Nat)
    (hi : i < cs.length) (hs : i < sts.length)
    (hr : i < (buildCondRows idM cs sts k).length) :
    (buildCondRows idM cs sts k).get ⟨i, hr⟩ =
      mkCondRow idM (cs.get ⟨i, hi⟩) (sts.get ⟨i, hs⟩) (k + i) := by
  induction cs generalizing sts k i with
  | nil => exact absurd hi (by simp)
  | cons c cs ih =>
    cases sts with
    | nil => cases h
    | cons s sts =>
      cases i with
      | zero => rfl
      | succ i =>
        have := ih (Nat.succ_injective h) (k + 1) i
          (Nat.lt_of_succ_lt_succ hi) (Nat.lt_of_succ_lt_succ hs)
          (by
            have hl := buildCondRows_length idM
              (Nat.succ_injective h) (k + 1)
            exact hl ▸ Nat.lt_of_succ_lt_succ hi)
        calc (buildCondRows idM (c :: cs) (s :: sts) k).get ⟨i + 1, hr⟩
            = (buildCondRows idM cs sts (k + 1)).get ⟨i, _⟩ := rfl
          _ = mkCondRow idM (cs.get ⟨i, _⟩) (sts.get ⟨i, _⟩) (k + 1 + i) := this
          _ = mkCondRow idM ((c :: cs).get ⟨i + 1, hi⟩) ((s :: sts).get ⟨i + 1, hs⟩)
                (k + (i + 1)) := by
              simp [List.get_cons_succ, Nat.add_assoc, Nat.add_comm 1 i]

theorem buildDrugRows_length (idM : String → Option Nat) {ms : List MedicationRow}
    {sts : List (Option Int)} (h : sts.length = ms.length) (k : Nat) :
    (buildDrugRows idM ms sts k).length = ms.length := by
  induction ms generalizing sts k with
  | nil => cases sts with
    | nil => rfl
    | cons s sts => cases h
  | cons m ms ih =>
    cases sts with
    | nil => cases h
    | cons s sts =>
      simp only [buildDrugRows, List.length_cons]
      exact congrArg Nat.succ (ih (Nat.succ_injective h) (k + 1))

theorem buildDrugRows_get (idM : String → Option Nat) {ms : List MedicationRow}
    {sts : List (Option Int)} (h : sts.length = ms.length) (k i : Nat)
    (hi : i < ms.length) (hs : i < sts.length)
    (hr : i < (buildDrugRows idM ms sts k).length) :
    (buildDrugRows idM ms sts k).get ⟨i, hr⟩ =
      mkDrugRow idM (ms.get ⟨i, hi⟩) (sts.get ⟨i, hs⟩) (k + i) := by
  induction ms generalizing sts k i with
  | nil => exact absurd hi (by simp)
  | cons m ms ih =>
    cases sts with
    | nil => cases h
    | cons s sts =>
      cases i with
      | zero => rfl
      | succ i =>
        have := ih (Nat.succ_injective h) (k + 1) i
          (Nat.lt_of_succ_lt_succ hi) (Nat.lt_of_succ_lt_succ hs)
          (by
            have hl := buildDrugRows_length idM
              (Nat.succ_injective h) (k + 1)
            exact hl ▸ Nat.lt_of_succ_lt_succ hi)
        calc (buildDrugRows idM (m :: ms) (s :: sts) k).get ⟨i + 1, hr⟩
            = (buildDrugRows idM ms sts (k + 1)).get ⟨i, _⟩ := rfl
          _ = mkDrugRow idM (ms.get ⟨i, _⟩) (sts.get ⟨i, _⟩) (k + 1 + i) := this
          _ = mkDrugRow idM ((m :: ms).get ⟨i + 1, hi⟩) ((s :: sts).get ⟨i + 1, hs⟩)
                (k + (i + 1)) := by
              simp [List.get_cons_succ, Nat.add_assoc, Nat.add_comm 1 i]

/-! ### Stage-result destructuring lemmas -/

theorem map_condition_ok_some {idM : String → Option Nat}
    {cs : List ConditionRow} {outC : List CondOut}
    (h : map_condition_occurrence idM cs = .ok (some outC)) :
    ∃ starts, parseStrictList (cs.map ConditionRow.START) = .ok starts ∧
      starts.length = cs.length ∧ outC = buildCondRows idM cs starts 1 := by
  unfold map_condition_occurrence at h
  by_cases hcs : cs.length = 0
  · rw [if_pos hcs] at h
    simp at h
  · rw [if_neg hcs] at h
    cases hp : parseStrictList (cs.map ConditionRow.START) with
    | error e => rw [hp] at h; cases h
    | ok starts =>
      rw [hp] at h
      refine ⟨starts, rfl, ?_, ?_⟩
      · have := parseStrictList_length hp
        simpa using this
      · cases h
        rfl

theorem map_drug_ok_some {idM : String → Option Nat}
    {ms : List MedicationRow} {outD : List DrugOut}
    (h : map_drug_exposure idM ms = .ok (some outD)) :
    ∃ starts, parseStrictList (ms.map MedicationRow.START) = .ok starts ∧
      starts.length = ms.length ∧ outD = buildDrugRows idM ms starts 1 := by
  unfold map_drug_exposure at h
  by_cases hms : ms.length = 0
  · rw [if_pos hms] at h
    simp at h
  · rw [if_neg hms] at h
    cases hp : parseStrictList (ms.map MedicationRow.START) with
    | error e => rw [hp] at h; cases h
    | ok starts =>
      rw [hp] at h
      refine ⟨starts, rfl, ?_, ?_⟩
      · have := parseStrictList_length hp
        simpa using this
      · cases h
        rfl

theorem mkCondRow_person_id (idM : String → Option Nat) (c : ConditionRow)
    (st : Option Int) (k : Nat) : (mkCondRow idM c st k).person_id = idM c.PATIENT :=
  rfl

theorem mkDrugRow_person_id (idM : String → Option Nat) (m : MedicationRow)
    (st : Option Int) (k : Nat) : (mkDrugRow idM m st k).person_id = idM m.PATIENT :=
  rfl

theorem mkDrugRow_start (idM : String → Option Nat) (m : MedicationRow)
    (st : Option Int) (k : Nat) :
    (mkDrugRow idM m st k).drug_exposure_start_date = st :=
  rfl

theorem mkDrugRow_end_of_stop_none (idM : String → Option Nat)
    (m : MedicationRow) (st : Option Int) (k : Nat)
    (h : toDatetimeCoerce m.STOP = none) :
    (mkDrugRow idM m st k).drug_exposure_end_date = st := by
  simp [mkDrugRow, h]

theorem mkDrugRow_days_supply (idM : String → Option Nat) (m : MedicationRow)
    (sv : Int) (k : Nat) :
    (mkDrugRow idM m (some sv) k).days_supply =
      some ((toDatetimeCoerce m.STOP).getD sv - sv) := by
  cases h : toDatetimeCoerce m.STOP <;> simp [mkDrugRow, h]

/-! ### Claim C3 -/

/-- Claim C3: a condition or medication row whose patient identifier is
not a key of the identity map is still mapped to one output row — the
output table has one row per source row — whose person reference is
null, with no raised error and no dropped row. -/
theorem unmapped_reference_tolerance (idM : String → Option Nat)
    (cs : List ConditionRow) (ms : List MedicationRow)
    (outC : List CondOut) (outD : List DrugOut) (i j : Nat)
    (hi : i < cs.length) (hj : j < ms.length)
    (hC : map_condition_occurrence idM cs = .ok (some outC))
    (hD : map_drug_exposure idM ms = .ok (some outD))
    (hpc : idM (cs.get ⟨i, hi⟩).PATIENT = none)
    (hpd : idM (ms.get ⟨j, hj⟩).PATIENT = none) :
    (outC.length = cs.length ∧ condPersonRefAt outC i = some none) ∧
      (outD.length = ms.length ∧ drugPersonRefAt outD j = some none) := by
  rcases map_condition_ok_some hC with ⟨starts, hp, hlen, rfl⟩
  rcases map_drug_ok_some hD with ⟨startsD, hpD, hlenD, rfl⟩
  have hlC : (buildCondRows idM cs starts 1).length = cs.length :=
    buildCondRows_length idM hlen 1
  have hlD : (buildDrugRows idM ms startsD 1).length = ms.length :=
    buildDrugRows_length idM hlenD 1
  refine ⟨⟨hlC, ?_⟩, ⟨hlD, ?_⟩⟩
  · have hiC : i < (buildCondRows idM cs starts 1).length := hlC ▸ hi
    rw [condPersonRefAt, List.get?_eq_get hiC,
      buildCondRows_get idM hlen 1 i hi (hlen ▸ hi) hiC]
    simp only [Option.map_some', mkCondRow_person_id]
    rw [hpc]
  · have hjD : j < (buildDrugRows idM ms startsD 1).length := hlD ▸ hj
    rw [drugPersonRefAt, List.get?_eq_get hjD,
      buildDrugRows_get idM hlenD 1 j hj (hlenD ▸ hj) hjD]
    simp only [Option.map_some', mkDrugRow_person_id]
    rw [hpd]

/-- Concrete instantiation of `unmapped_reference_tolerance`: the empty
identity map, one condition row and one medication row, both
referencing the unmapped patient "ghost". -/
theorem unmapped_reference_tolerance_witness :
    ((buildCondRows (fun _ => none) [⟨"ghost", "c1", .valid 10, .missing⟩]
          [some 10] 1).length =
        ([⟨"ghost", "c1", .valid 10, .missing⟩] : List ConditionRow).length ∧
      condPersonRefAt
        (buildCondRows (fun _ => none) [⟨"ghost", "c1", .valid 10, .missing⟩]
          [some 10] 1) 0 = some none) ∧
    ((buildDrugRows (fun _ => none) [⟨"ghost", "d1", .valid 10, .missing, none⟩]
          [some 10] 1).length =
        ([⟨"ghost", "d1", .valid 10, .missing, none⟩] : List MedicationRow).length ∧
      drugPersonRefAt
        (buildDrugRows (fun _ => none) [⟨"ghost", "d1", .valid 10, .missing, none⟩]
          [some 10] 1) 0 = some none) :=
  unmapped_reference_tolerance (fun _ => none)
    [⟨"ghost", "c1", .valid 10, .missing⟩]
    [⟨"ghost", "d1", .valid 10, .missing, none⟩]
    (buildCondRows (fun _ => none) [⟨"ghost", "c1", .valid 10, .missing⟩] [some 10] 1)
    (buildDrugRows (fun _ => none) [⟨"ghost", "d1", .valid 10, .missing, none⟩] [some 10] 1)
    0 0 (by decide) (by decide) rfl rfl rfl rfl

/-! ### Claim C4 -/

/-- Claim C4 counterexample: a medication row whose stop date lies 5 days
before its start date is mapped to a row with `days_supply = -5`, a
negative value — the defaulting only prevents negative spans for rows
with no stop date at all. -/
theorem days_supply_negative_cex :
    map_drug_exposure (fun _ => none) [⟨"p", "d1", .valid 10, .valid 5, none⟩] =
      .ok (some (buildDrugRows (fun _ => none)
        [⟨"p", "d1", .valid 10, .valid 5, none⟩] [some 10] 1)) ∧
    daysSupplyAt
        (buildDrugRows (fun _ => none)
          [⟨"p", "d1", .valid 10, .valid 5, none⟩] [some 10] 1) 0 =
      some (some (-5)) ∧
    ¬ (0 : Int) ≤ -5 :=
  ⟨rfl, by decide, by decide⟩

/-- Claim C4 as amended: for every medication row with a parseable start
date, the computed `days_supply` equals the resolved end date minus the
start date, and it is non-negative provided the resolved end date (the
coerced stop date, defaulted to the start date when absent) is not
before the start date; in particular the defaulting makes it 0, hence
non-negative, whenever the stop date is absent. -/
theorem days_supply_nonneg_of_ordered (idM : String → Option Nat)
    (ms : List MedicationRow) (outD : List DrugOut) (i : Nat) (sv : Int)
    (hi : i < ms.length)
    (hD : map_drug_exposure idM ms = .ok (some outD))
    (hstart : (ms.get ⟨i, hi⟩).START = RawDate.valid sv)
    (hle : sv ≤ (toDatetimeCoerce (ms.get ⟨i, hi⟩).STOP).getD sv) :
    daysSupplyAt outD i =
      some (some ((toDatetimeCoerce (ms.get ⟨i, hi⟩).STOP).getD sv - sv)) ∧
      0 ≤ (toDatetimeCoerce (ms.get ⟨i, hi⟩).STOP).getD sv - sv := by
  rcases map_drug_ok_some hD with ⟨starts, hp, hlen, rfl⟩
  have hlD : (buildDrugRows idM ms starts 1).length = ms.length :=
    buildDrugRows_length idM hlen 1
  have hiD : i < (buildDrugRows idM ms starts 1).length := hlD ▸ hi
  have hst : starts.get ⟨i, hlen ▸ hi⟩ = some sv := by
    have hmap : i < (ms.map MedicationRow.START).length := by simpa using hi
    have h2 := parseStrictList_get hp i hmap (hlen ▸ hi)
    have h3 : (ms.map MedicationRow.START).get ⟨i, hmap⟩ = RawDate.valid sv := by
      rw [List.get_eq_getElem, List.getElem_map]
      rw [List.get_eq_getElem] at hstart
      exact hstart
    rw [h3] at h2
    simp only [toDatetimeStrict] at h2
    exact (Except.ok.inj h2).symm
  constructor
  · rw [daysSupplyAt, List.get?_eq_get hiD,
      buildDrugRows_get idM hlen 1 i hi (hlen ▸ hi) hiD, hst]
    simp [mkDrugRow_days_supply]
  · omega

/-- Concrete instantiation of `days_supply_nonneg_of_ordered` on a
medication row whose stop date is 7 days after its start date. -/
theorem days_supply_nonneg_of_ordered_witness :
    daysSupplyAt
        (buildDrugRows (fun _ => none)
          [⟨"p", "d1", .valid 10, .valid 17, none⟩] [some 10] 1) 0 =
      some (some ((toDatetimeCoerce
        (([⟨"p", "d1", .valid 10, .valid 17, none⟩] :
            List MedicationRow).get ⟨0, by decide⟩).STOP).getD 10 - 10)) ∧
      0 ≤ (toDatetimeCoerce
        (([⟨"p", "d1", .valid 10, .valid 17, none⟩] :
            List MedicationRow).get ⟨0, by decide⟩).STOP).getD 10 - 10 :=
  days_supply_nonneg_of_ordered (fun _ => none)
    [⟨"p", "d1", .valid 10, .valid 17, none⟩]
    (buildDrugRows (fun _ => none)
      [⟨"p", "d1", .valid 10, .valid 17, none⟩] [some 10] 1)
    0 10 (by decide) rfl rfl (by decide)

/-! ### Claim C5 -/

/-- Claim C5 counterexample: the claim's lookup says the ethnicity source
value "non-hispanic" resolves to 38003564, but the source's lookup is
keyed by the literal string "nonhispanic" (no hyphen), so `map_person`
resolves "non-hispanic" as unrecognized, to 0. -/
theorem ethnicity_lookup_cex :
    map_person [⟨"p1", some "F", .valid 0, .missing, none, some "non-hispanic"⟩] =
      .ok (buildPersonRows
            [⟨"p1", some "F", .valid 0, .missing, none, some "non-hispanic"⟩]
            [some 0] 1,
          buildIdMap
            [⟨"p1", some "F", .valid 0, .missing, none, some "non-hispanic"⟩]) ∧
    (buildPersonRows
        [⟨"p1", some "F", .valid 0, .missing, none, some "non-hispanic"⟩]
        [some 0] 1).map PersonRow.ethnicity_concept_id = [0] ∧
    ethnicityConceptSpec (some "non-hispanic") = 38003564 ∧
    (0 : Nat) ≠ 38003564 :=
  ⟨rfl, by decide, by decide, by decide⟩

/-- The `ethnicity_concept_id` cell of person output row `i`. -/
def ethnicityAt (rows : List PersonRow) (i : Nat) : Option Nat :=
  (rows.get? i).map PersonRow.ethnicity_concept_id

/-- Claim C5 as amended: for every patient row, `map_person` resolves the
ethnicity source value by the fixed lookup
{"hispanic"→38003563, "nonhispanic"→38003564} (the source's key has no
hyphen), and any unrecognized or missing ethnicity value resolves to 0. -/
theorem ethnicity_lookup_code (patients : List Patient)
    (rows : List PersonRow) (m : String → Option Nat)
    (h : map_person patients = .ok (rows, m))
    (i : Nat) (hip : i < patients.length) (e : Option String) :
    ethnicityAt rows i =
      some (ethnicityConcept (patients.get ⟨i, hip⟩).ETHNICITY) ∧
      ethnicityConcept (some "hispanic") = 38003563 ∧
      ethnicityConcept (some "nonhispanic") = 38003564 ∧
      (e ≠ some "hispanic" → e ≠ some "nonhispanic" → ethnicityConcept e = 0) := by
  refine ⟨?_, rfl, rfl, ?_⟩
  · unfold map_person at h
    cases hp : parseStrictList (patients.map Patient.BIRTHDATE) with
    | error er => rw [hp] at h; cases h
    | ok births =>
      rw [hp] at h
      cases h
      have hlen : births.length = patients.length := by
        have := parseStrictList_length hp
        simpa using this
      have hr : i < (buildPersonRows patients births 1).length :=
        (buildPersonRows_length hlen 1) ▸ hip
      rw [ethnicityAt, List.get?_eq_get hr,
        buildPersonRows_get hlen 1 i hip (hlen ▸ hip) hr]
      rfl
  · intro h1 h2
    cases e with
    | none => rfl
    | some s =>
      have hs1 : ¬s = "hispanic" := fun hs => h1 (by rw [hs])
      have hs2 : ¬s = "nonhispanic" := fun hs => h2 (by rw [hs])
      simp [ethnicityConcept, hs1, hs2]

/-- Concrete instantiation of `ethnicity_lookup_code` on a one-patient
table with ethnicity "nonhispanic", probing the unrecognized value
"other". -/
theorem ethnicity_lookup_code_witness :
    ethnicityAt
        (buildPersonRows
          [⟨"p1", some "F", .valid 0, .missing, none, some "nonhispanic"⟩]
          [some 0] 1) 0 =
      some (ethnicityConcept
        (([⟨"p1", some "F", .valid 0, .missing, none, some "nonhispanic"⟩] :
            List Patient).get ⟨0, by decide⟩).ETHNICITY) ∧
      ethnicityConcept (some "hispanic") = 38003563 ∧
      ethnicityConcept (some "nonhispanic") = 38003564 ∧
      (some "other" ≠ some "hispanic" → some "other" ≠ some "nonhispanic" →
        ethnicityConcept (some "other") = 0) :=
  ethnicity_lookup_code
    [⟨"p1", some "F", .valid 0, .missing, none, some "nonhispanic"⟩]
    (buildPersonRows
      [⟨"p1", some "F", .valid 0, .missing, none, some "nonhispanic"⟩]
      [some 0] 1)
    (buildIdMap [⟨"p1", some "F", .valid 0, .missing, none, some "nonhispanic"⟩])
    rfl 0 (by decide) (some "other")

/-! ### Claim C6 -/

theorem parsed_start_med {ms : List MedicationRow} {starts : List (Option Int)}
    {sv : Int} (hp : parseStrictList (ms.map MedicationRow.START) = .ok starts)
    (hlen : starts.length = ms.length) (i : Nat) (hi : i < ms.length)
    (hstart : (ms.get ⟨i, hi⟩).START = RawDate.valid sv) :
    starts.get ⟨i, hlen ▸ hi⟩ = some sv := by
  have hmap : i < (ms.map MedicationRow.START).length := by simpa using hi
  have h2 := parseStrictList_get hp i hmap (hlen ▸ hi)
  have h3 : (ms.map MedicationRow.START).get ⟨i, hmap⟩ = RawDate.valid sv := by
    rw [List.get_eq_getElem, List.getElem_map]
    rw [List.get_eq_getElem] at hstart
    exact hstart
  rw [h3] at h2
  simp only [toDatetimeStrict] at h2
  exact (Except.ok.inj h2).symm

/-- Claim C6: for every medication row with a parseable start date and no
stop date, the output drug-exposure end date equals the start date and
the computed `days_supply` equals 0. -/
theorem drug_end_date_default (idM : String → Option Nat)
    (ms : List MedicationRow) (outD : List DrugOut) (i : Nat) (sv : Int)
    (hi : i < ms.length)
    (hD : map_drug_exposure idM ms = .ok (some outD))
    (hstart : (ms.get ⟨i, hi⟩).START = RawDate.valid sv)
    (hstop : toDatetimeCoerce (ms.get ⟨i, hi⟩).STOP = none) :
    drugStartAt outD i = some (some sv) ∧
      drugEndAt outD i = some (some sv) ∧
      daysSupplyAt outD i = some (some 0) := by
  rcases map_drug_ok_some hD with ⟨starts, hp, hlen, rfl⟩
  have hlD : (buildDrugRows idM ms starts 1).length = ms.length :=
    buildDrugRows_length idM hlen 1
  have hiD : i < (buildDrugRows idM ms starts 1).length := hlD ▸ hi
  have hst := parsed_start_med hp hlen i hi hstart
  refine ⟨?_, ?_, ?_⟩
  · rw [drugStartAt, List.get?_eq_get hiD,
      buildDrugRows_get idM hlen 1 i hi (hlen ▸ hi) hiD, hst]
    simp [mkDrugRow_start]
  · rw [drugEndAt, List.get?_eq_get hiD,
      buildDrugRows_get idM hlen 1 i hi (hlen ▸ hi) hiD, hst]
    simp only [Option.map_some']
    rw [mkDrugRow_end_of_stop_none idM _ _ _ hstop]
  · rw [daysSupplyAt, List.get?_eq_get hiD,
      buildDrugRows_get idM hlen 1 i hi (hlen ▸ hi) hiD, hst]
    simp only [Option.map_some', mkDrugRow_days_supply]
    rw [hstop]
    simp

/-- Concrete instantiation of `drug_end_date_default` on a medication row
with start day 10 and an empty stop cell. -/
theorem drug_end_date_default_witness :
    drugStartAt
        (buildDrugRows (fun _ => none)
          [⟨"p", "d1", .valid 10, .missing, none⟩] [some 10] 1) 0 =
      some (some 10) ∧
      drugEndAt
          (buildDrugRows (fun _ => none)
            [⟨"p", "d1", .valid 10, .missing, none⟩] [some 10] 1) 0 =
        some (some 10) ∧
      daysSupplyAt
          (buildDrugRows (fun _ => none)
            [⟨"p", "d1", .valid 10, .missing, none⟩] [some 10] 1) 0 =
        some (some 0) :=
  drug_end_date_default (fun _ => none)
    [⟨"p", "d1", .valid 10, .missing, none⟩]
    (buildDrugRows (fun _ => none)
      [⟨"p", "d1", .valid 10, .missing, none⟩] [some 10] 1)
    0 10 (by decide) rfl rfl rfl

/-! ### Claim C7 -/

/-- Claim C7: if any patient row's birth date is unparseable, the person
mapping stage raises while parsing the birth-date column — before the
`bulk_insert` call — so no row of the person table is persisted. -/
theorem invalid_birthdate_aborts_person_stage (patients : List Patient)
    (p : Patient) (hp : p ∈ patients) (hinv : p.BIRTHDATE = RawDate.invalid) :
    personStagePersisted patients = none := by
  have hmem : RawDate.invalid ∈ patients.map Patient.BIRTHDATE := by
    rw [← hinv]
    exact List.mem_map_of_mem Patient.BIRTHDATE hp
  rcases parseStrictList_error_of_invalid hmem with ⟨e, he⟩
  have herr : map_person patients = .error e := by
    unfold map_person
    rw [he]
  simp only [personStagePersisted, herr]

/-- Concrete instantiation of `invalid_birthdate_aborts_person_stage` on
a table whose second patient has a malformed birth date. -/
theorem invalid_birthdate_aborts_person_stage_witness :
    personStagePersisted
        [⟨"p1", some "F", .valid 100, .missing, none, none⟩,
         ⟨"p2", some "M", .invalid, .missing, none, none⟩] = none :=
  invalid_birthdate_aborts_person_stage
    [⟨"p1", some "F", .valid 100, .missing, none, none⟩,
     ⟨"p2", some "M", .invalid, .missing, none, none⟩]
    ⟨"p2", some "M", .invalid, .missing, none, none⟩
    (by decide) rfl

/-! ### Claim C9 -/

/-- Claim C9: an empty conditions or medications source table makes the
stage return without writing and without raising (warning only, modelled
as `.ok none`), while person and observation-period mapping on a
non-empty patients table with parseable birth dates still complete
without raising. -/
theorem empty_input_resilience (idM : String → Option Nat)
    (patients : List Patient) (now : Int)
    (hne : patients ≠ [])
    (hvd : ∀ p ∈ patients, p.BIRTHDATE ≠ RawDate.invalid) :
    map_condition_occurrence idM [] = .ok none ∧
      map_drug_exposure idM [] = .ok none ∧
      isOkE (map_person patients) = true ∧
      isOkE (map_observation_period (buildIdMap patients) patients now) = true := by
  have hcol : ∀ d ∈ patients.map Patient.BIRTHDATE, d ≠ RawDate.invalid := by
    intro d hd
    rcases List.mem_map.mp hd with ⟨p, hp, rfl⟩
    exact hvd p hp
  rcases parseStrictList_ok_of_no_invalid hcol with ⟨vs, hvs⟩
  refine ⟨rfl, rfl, ?_, ?_⟩
  · simp [map_person, hvs, isOkE]
  · simp [map_observation_period, hvs, isOkE]

/-- Concrete instantiation of `empty_input_resilience` with the identity
map and a one-patient table. -/
theorem empty_input_resilience_witness :
    map_condition_occurrence
        (buildIdMap [⟨"p1", some "F", .valid 100, .missing, none, none⟩]) [] =
      .ok none ∧
      map_drug_exposure
          (buildIdMap [⟨"p1", some "F", .valid 100, .missing, none, none⟩]) [] =
        .ok none ∧
      isOkE (map_person [⟨"p1", some "F", .valid 100, .missing, none, none⟩]) =
        true ∧
      isOkE (map_observation_period
          (buildIdMap [⟨"p1", some "F", .valid 100, .missing, none, none⟩])
          [⟨"p1", some "F", .valid 100, .missing, none, none⟩] 20000) = true :=
  empty_input_resilience
    (buildIdMap [⟨"p1", some "F", .valid 100, .missing, none, none⟩])
    [⟨"p1", some "F", .valid 100, .missing, none, none⟩] 20000
    (by decide) (by decide)

/-! ### Claim C10 -/

/-- Claim C10: when the patients table contains the same source
identifier on two or more rows, person mapping still emits one person
row per source row with distinct sequential surrogate ids 1..N, but the
identity map associates that identifier with the surrogate id of its
last occurrence only, and every downstream condition or drug row
referencing that identifier resolves to that last surrogate id. -/
theorem duplicate_id_last_wins (patients : List Patient)
    (rows : List PersonRow) (m : String → Option Nat) (s : String)
    (i j : Nat) (hi : i < patients.length) (hj : j < patients.length)
    (hij : i < j)
    (hsi : (patients.get ⟨i, hi⟩).Id = s)
    (hsj : (patients.get ⟨j, hj⟩).Id = s)
    (hlast : ∀ t (ht : t < patients.length), j < t → (patients.get ⟨t, ht⟩).Id ≠ s)
    (h : map_person patients = .ok (rows, m))
    (cs : List ConditionRow) (outC : List CondOut) (k : Nat) (hk : k < cs.length)
    (hC : map_condition_occurrence m cs = .ok (some outC))
    (hck : (cs.get ⟨k, hk⟩).PATIENT = s)
    (ms : List MedicationRow) (outD : List DrugOut) (l : Nat) (hl : l < ms.length)
    (hD : map_drug_exposure m ms = .ok (some outD))
    (hdl : (ms.get ⟨l, hl⟩).PATIENT = s) :
    rows.map PersonRow.person_id = List.range' 1 patients.length ∧
      m s = some (j + 1) ∧
      condPersonRefAt outC k = some (some (j + 1)) ∧
      drugPersonRefAt outD l = some (some (j + 1)) := by
  have hm : m = buildIdMap patients := map_person_idmap h
  have hms : m s = some (j + 1) := by
    subst hm
    have := updMap_last hj hsj hlast (fun _ => none) 1
    rw [buildIdMap, this, Nat.add_comm]
  refine ⟨?_, hms, ?_, ?_⟩
  · unfold map_person at h
    cases hp : parseStrictList (patients.map Patient.BIRTHDATE) with
    | error e => rw [hp] at h; cases h
    | ok births =>
      rw [hp] at h
      cases h
      have hlen : births.length = patients.length := by
        simpa using parseStrictList_length hp
      exact buildPersonRows_map_pid hlen 1
  · rcases map_condition_ok_some hC with ⟨starts, hpc, hlenc, rfl⟩
    have hkC : k < (buildCondRows m cs starts 1).length :=
      (buildCondRows_length m hlenc 1) ▸ hk
    rw [condPersonRefAt, List.get?_eq_get hkC,
      buildCondRows_get m hlenc 1 k hk (hlenc ▸ hk) hkC]
    simp only [Option.map_some', mkCondRow_person_id]
    rw [hck, hms]
  · rcases map_drug_ok_some hD with ⟨starts, hpd, hlend, rfl⟩
    have hlD : l < (buildDrugRows m ms starts 1).length :=
      (buildDrugRows_length m hlend 1) ▸ hl
    rw [drugPersonRefAt, List.get?_eq_get hlD,
      buildDrugRows_get m hlend 1 l hl (hlend ▸ hl) hlD]
    simp only [Option.map_some', mkDrugRow_person_id]
    rw [hdl, hms]

/-- Concrete instantiation of `duplicate_id_last_wins`: two patient rows
share the identifier "p"; the identity map resolves "p" to the second
row's surrogate id 2, and a condition row and a medication row
referencing "p" both resolve to person 2. -/
theorem duplicate_id_last_wins_witness :
    (buildPersonRows
        [⟨"p", some "F", .valid 100, .missing, none, none⟩,
         ⟨"p", some "M", .valid 200, .missing, none, none⟩]
        [some 100, some 200] 1).map PersonRow.person_id =
      List.range' 1
        ([⟨"p", some "F", .valid 100, .missing, none, none⟩,
          ⟨"p", some "M", .valid 200, .missing, none, none⟩] :
          List Patient).length ∧
      buildIdMap
          [⟨"p", some "F", .valid 100, .missing, none, none⟩,
           ⟨"p", some "M", .valid 200, .missing, none, none⟩] "p" =
        some (1 + 1) ∧
      condPersonRefAt
          (buildCondRows
            (buildIdMap
              [⟨"p", some "F", .valid 100, .missing, none, none⟩,
               ⟨"p", some "M", .valid 200, .missing, none, none⟩])
            [⟨"p", "c1", .valid 300, .missing⟩] [some 300] 1) 0 =
        some (some (1 + 1)) ∧
      drugPersonRefAt
          (buildDrugRows
            (buildIdMap
              [⟨"p", some "F", .valid 100, .missing, none, none⟩,
               ⟨"p", some "M", .valid 200, .missing, none, none⟩])
            [⟨"p", "d1", .valid 300, .missing, none⟩] [some 300] 1) 0 =
        some (some (1 + 1)) :=
  duplicate_id_last_wins
    [⟨"p", some "F", .valid 100, .missing, none, none⟩,
     ⟨"p", some "M", .valid 200, .missing, none, none⟩]
    (buildPersonRows
      [⟨"p", some "F", .valid 100, .missing, none, none⟩,
       ⟨"p", some "M", .valid 200, .missing, none, none⟩]
      [some 100, some 200] 1)
    (buildIdMap
      [⟨"p", some "F", .valid 100, .missing, none, none⟩,
       ⟨"p", some "M", .valid 200, .missing, none, none⟩])
    "p" 0 1 (by decide) (by decide) (by decide) rfl rfl
    (by intro t ht hgt; simp only [List.length_cons, List.length_nil] at ht; omega)
    rfl
    [⟨"p", "c1", .valid 300, .missing⟩]
    (buildCondRows
      (buildIdMap
        [⟨"p", some "F", .valid 100, .missing, none, none⟩,
         ⟨"p", some "M", .valid 200, .missing, none, none⟩])
      [⟨"p", "c1", .valid 300, .missing⟩] [some 300] 1)
    0 (by decide) rfl rfl
    [⟨"p", "d1", .valid 300, .missing, none⟩]
    (buildDrugRows
      (buildIdMap
        [⟨"p", some "F", .valid 100, .missing, none, none⟩,
         ⟨"p", some "M", .valid 200, .missing, none, none⟩])
      [⟨"p", "d1", .valid 300, .missing, none⟩] [some 300] 1)
    0 (by decide) rfl rfl

/-! ### Claim C8: de-identification transform (`prepare_data.py`) -/

/-- State of the `random` module's global generator, abstracted:
`random.seed(n)` re-initializes the state from `n` alone, discarding the
prior state, and `random.randint` is a deterministic function of the
state. The Mersenne-Twister internals are irrelevant to the claim, which
depends only on this determinism, so the state is a single value. -/
structure RNGState where
  val : Nat
  deriving DecidableEq, Repr

/-- `random.seed(n)` (line 38): the new generator state depends only on
the seed, not on the previous state. -/
def seedRNG (n : Nat) (_ : RNGState) : RNGState := ⟨n⟩

/-- `random.randint(lo, hi)` (line 40): a deterministic function of the
generator state, returning a value in `[lo, hi]` and the advanced
state. -/
def randint (lo hi : Nat) (s : RNGState) : Nat × RNGState :=
  (lo + s.val % (hi - lo + 1), ⟨s.val + 1⟩)

/-- One row of the `person` table as read back from the store
(line 12); `person_source_value` stands for the columns outside the
allow-list that de-identification must drop. -/
structure PersonDB where
  person_id : Nat
  gender_concept_id : Nat
  year_of_birth : Option Int
  race_concept_id : Nat
  ethnicity_concept_id : Nat
  person_source_value : String
  deriving DecidableEq, Repr

/-- The person columns kept by the allow-list (lines 20-22). -/
structure DeidPerson where
  person_id : Nat
  gender_concept_id : Nat
  year_of_birth : Option Int
  race_concept_id : Nat
  deriving DecidableEq, Repr

/-- Column narrowing of a person row (lines 20-22). -/
def deidPersonOf (p : PersonDB) : DeidPerson :=
  ⟨p.person_id, p.gender_concept_id, p.year_of_birth, p.race_concept_id⟩

/-- One row of `condition_occurrence` as read back from the store
(line 13), with one representative column outside the allow-list. -/
structure CondDB where
  condition_occurrence_id : Nat
  person_id : Option Nat
  condition_concept_id : Nat
  condition_start_date : Option Int
  condition_source_value : String
  deriving DecidableEq, Repr

/-- The condition columns kept by the allow-list (lines 24-31). -/
structure DeidCond where
  condition_occurrence_id : Nat
  person_id : Option Nat
  condition_concept_id : Nat
  condition_start_date : Option Int
  deriving DecidableEq, Repr

/-- Column narrowing of a condition row (lines 24-31). -/
def deidCondOf (c : CondDB) : DeidCond :=
  ⟨c.condition_occurrence_id, c.person_id, c.condition_concept_id,
    c.condition_start_date⟩

/-- One row of `drug_exposure` as read back from the store (line 14),
with one representative column outside the allow-list. -/
structure DrugDB where
  drug_exposure_id : Nat
  person_id : Option Nat
  drug_concept_id : Nat
  drug_exposure_start_date : Option Int
  drug_source_value : String
  deriving DecidableEq, Repr

/-- The drug columns kept by the allow-list (lines 33-35). -/
structure DeidDrug where
  drug_exposure_id : Nat
  person_id : Option Nat
  drug_concept_id : Nat
  drug_exposure_start_date : Option Int
  deriving DecidableEq, Repr

/-- Column narrowing of a drug row (lines 33-35). -/
def deidDrugOf (d : DrugDB) : DeidDrug :=
  ⟨d.drug_exposure_id, d.person_id, d.drug_concept_id,
    d.drug_exposure_start_date⟩

/-- Adding `pd.Timedelta(days=k)` to a condition start date
(lines 41-43); `NaT + Timedelta` stays `NaT`. -/
def shiftCondBy (k : Nat) (c : DeidCond) : DeidCond :=
  { c with condition_start_date := c.condition_start_date.map (· + (k : Int)) }

/-- Adding `pd.Timedelta(days=k)` to a drug start date (lines 45-47). -/
def shiftDrugBy (k : Nat) (d : DeidDrug) : DeidDrug :=
  { d with drug_exposure_start_date :=
      d.drug_exposure_start_date.map (· + (k : Int)) }

/-- The serialized output of `prepare_data.py` (line 52): the three
narrowed tables plus the drawn shift (printed at line 49). -/
structure DeidOutput where
  person : List DeidPerson
  conditions : List DeidCond
  drugs : List DeidDrug
  shift : Nat
  deriving DecidableEq, Repr

/-- `prepare_data.py` (lines 16-52): narrows each table to its column
allow-list, seeds the generator with the constant 42 (line 38), draws
one offset `randint(1, 30)` (line 40), and adds that many days to the
condition and drug start dates (lines 41-47); the person table keeps
only year of birth, unshifted. Returns the output artifact together
with the final generator state of the run. -/
def prepareData (person : List PersonDB) (conditions : List CondDB)
    (drugs : List DrugDB) (rng0 : RNGState) : DeidOutput × RNGState :=
  let person_clean := person.map deidPersonOf
  let conditions_clean := conditions.map deidCondOf
  let drugs_clean := drugs.map deidDrugOf
  let rng1 := seedRNG 42 rng0
  let res := randint 1 30 rng1
  (⟨person_clean,
    conditions_clean.map (shiftCondBy res.1),
    drugs_clean.map (shiftDrugBy res.1),
    res.1⟩, res.2)

/-- Claim C8: two runs of the de-identification transform over identical
input produce the same shift offset and identical shifted condition and
drug start dates, whatever generator state each run starts from —
seeding with the fixed constant 42 makes the drawn offset, and hence
every shifted date, independent of any prior generator state. -/
theorem date_shift_deterministic (person : List PersonDB)
    (conditions : List CondDB) (drugs : List DrugDB) (r1 r2 : RNGState) :
    (prepareData person conditions drugs r1).1 =
      (prepareData person conditions drugs r2).1 ∧
      (prepareData person conditions drugs r1).1.shift =
        (prepareData person conditions drugs r2).1.shift :=
  ⟨rfl, rfl⟩
